/-
Verification of the bond-dashboard valuation engine (src/app.py, src/notifier.py)
against its natural-language specification.

The Python sources are shallowly embedded below:
* calendar dates are a `Date` structure (year, month, day) ordered
  lexicographically, exactly as Python `datetime.date` compares;
* day arithmetic (`timedelta`, pandas `.dt.days`) goes through the standard
  civil-calendar serial-day algorithm (`daysFromCivil` / `civilFromDays`);
* floating-point quantities are modelled as exact rationals;
* `numpy_financial.rate` is modelled abstractly: as an arbitrary solver
  parameter where only the caller's guards matter, and relationally via the
  equation `fv + pv*(1+r)^nper + pmt*((1+r)^nper - 1)/r = 0` that
  `npf.rate`'s documentation states it solves (the exponent `nper` is used
  as given, which in the source is the float `years * 2`);
* Python dicts keyed by ISO date strings are association lists keyed by
  naturals (the lexicographic order of `"%Y-%m-%d"` strings agrees with the
  chronological order that the naturals carry).
-/
import Mathlib

namespace BondDashboard

/-! ### Calendar dates -/

/-- A civil calendar date, as Python's `datetime.date`. -/
structure Date where
  year : Nat
  month : Nat
  day : Nat
deriving DecidableEq, Repr

/-- Python `date` comparison: lexicographic on (year, month, day). -/
def dateLt (a b : Date) : Bool :=
  decide (a.year < b.year) ||
    (decide (a.year = b.year) &&
      (decide (a.month < b.month) ||
        (decide (a.month = b.month) && decide (a.day < b.day))))

/-- Gregorian leap-year test. -/
def isLeap (y : Nat) : Bool :=
  decide (y % 4 = 0) && (decide (y % 100 ≠ 0) || decide (y % 400 = 0))

/-- Length of a month in the Gregorian calendar. -/
def daysInMonth (y m : Nat) : Nat :=
  if m = 2 then (if isLeap y then 29 else 28)
  else if m = 4 ∨ m = 6 ∨ m = 9 ∨ m = 11 then 30
  else 31

/-- Serial day number of a date (days since 1970-01-01, Gregorian),
by the standard civil-from-days algorithm.  This is what pandas's
`(d2 - d1).dt.days` and Python's `timedelta` arithmetic compute. -/
def daysFromCivil (dt : Date) : Int :=
  let y : Nat := if dt.month ≤ 2 then dt.year - 1 else dt.year
  let era : Nat := y / 400
  let yoe : Nat := y - era * 400
  let mp : Nat := (dt.month + 9) % 12
  let doy : Nat := (153 * mp + 2) / 5 + dt.day - 1
  let doe : Nat := yoe * 365 + yoe / 4 - yoe / 100 + doy
  (era * 146097 + doe : Int) - 719468

/-- Difference in calendar days, `(b - a).days` in Python. -/
def daysBetween (a b : Date) : Int :=
  daysFromCivil b - daysFromCivil a

/-- Inverse of `daysFromCivil` for nonnegative serials (dates from 1970 on). -/
def civilFromDays (serial : Nat) : Date :=
  let z : Nat := serial + 719468
  let era : Nat := z / 146097
  let doe : Nat := z - era * 146097
  let yoe : Nat := (doe - doe / 1460 + doe / 36524 - doe / 146096) / 365
  let y : Nat := yoe + era * 400
  let doy : Nat := doe - (365 * yoe + yoe / 4 - yoe / 100)
  let mp : Nat := (5 * doy + 2) / 153
  let d : Nat := doy - (153 * mp + 2) / 5 + 1
  let m : Nat := if mp < 10 then mp + 3 else mp - 9
  ⟨if m ≤ 2 then y + 1 else y, m, d⟩

/-- `today + timedelta(days = k)` for post-1970 dates. -/
def addDays (d : Date) (k : Nat) : Date :=
  civilFromDays ((daysFromCivil d).toNat + k)

/-- Python's `date.weekday()`: Monday = 0 (1970-01-01 was a Thursday = 3). -/
def weekday (d : Date) : Nat :=
  ((daysFromCivil d).toNat + 3) % 7

/-! ### Settlement date (src/app.py `get_settlement_date`, T+1 weekend-aware) -/

/-- `get_settlement_date` from src/app.py: Mon-Thu -> +1 day, Fri -> +3,
Sat/Sun -> +2. -/
def get_settlement_date (today : Date) : Date :=
  let wd := weekday today
  if wd ≤ 3 then addDays today 1
  else if wd = 4 then addDays today 3
  else addDays today 2

/-! ### 30/360 US day count (src/app.py `days360_us`, src/notifier.py `days360`) -/

/-- `days360_us` from src/app.py: clamp start day 31 to 30; clamp end day 31
to 30 only when the (clamped) start day is 30. -/
def days360_us (start stop : Date) : Int :=
  let d1 : Nat := if start.day = 31 then 30 else start.day
  let d2 : Nat := if stop.day = 31 ∧ d1 = 30 then 30 else stop.day
  360 * ((stop.year : Int) - start.year) + 30 * ((stop.month : Int) - start.month)
    + ((d2 : Int) - d1)

/-! ### Last coupon date (src/app.py `last_coupon_date`, src/notifier.py `last_coupon`) -/

/-- `d -= relativedelta(months=6)`: subtract six months, clamping the day of
month to the length of the target month, as dateutil does. -/
def subMonths6 (d : Date) : Date :=
  if 6 < d.month then
    ⟨d.year, d.month - 6, min d.day (daysInMonth d.year (d.month - 6))⟩
  else
    ⟨d.year - 1, d.month + 6, min d.day (daysInMonth (d.year - 1) (d.month + 6))⟩

/-- The `while d > SETTLEMENT: d -= relativedelta(months=6)` loop, with an
explicit iteration budget.  Each pair of six-month steps lowers the year by
exactly one, so the budget passed by `last_coupon_date` always suffices. -/
def lcdAux (settle : Date) : Nat → Date → Date
  | 0, d => d
  | fuel + 1, d => if dateLt settle d then lcdAux settle fuel (subMonths6 d) else d

/-- `last_coupon_date` from src/app.py: step back from the redemption date in
six-month intervals while the date is still after the settlement date. -/
def last_coupon_date (settle red : Date) : Date :=
  lcdAux settle (2 * (red.year - settle.year) + 4) red

/-! ### Reference data normalizer (src/app.py `load_master`, src/notifier.py
`load_master`) -/

/-- Years to maturity as src/app.py computes it:
`(REDEMPTION DATE - SETTLEMENT).dt.days / 365.25`. -/
def appYearsToMaturity (settle red : Date) : ℚ :=
  (daysBetween settle red : ℚ) / (1461 / 4)

/-- Years to maturity as src/notifier.py computes it:
`(REDEMPTION DATE - SETTLE).dt.days / 365`. -/
def notifierYearsToMaturity (settle red : Date) : ℚ :=
  (daysBetween settle red : ℚ) / 365

/-- A raw reference row after `pd.to_datetime(..., errors="coerce")`:
the redemption date is `none` when the date text failed to parse (NaT). -/
structure MasterRow where
  symbol : String
  coupon : ℚ
  redemption : Option Date

/-- A normalized bond reference record produced by `load_master`. -/
structure BondRef where
  symbol : String
  coupon : ℚ
  redemption : Date
  years : ℚ
deriving DecidableEq

/-- `load_master` from src/app.py, per-row content: drop rows whose
redemption date failed to parse (`dropna`), compute
`Years = days / 365.25`, and keep only rows with `Years > 0`. -/
def load_master (settle : Date) (rows : List MasterRow) : List BondRef :=
  rows.filterMap fun r =>
    match r.redemption with
    | Option.none => Option.none
    | Option.some red =>
      if 0 < appYearsToMaturity settle red then
        Option.some ⟨r.symbol, r.coupon, red, appYearsToMaturity settle red⟩
      else
        Option.none

/-! ### Accrued interest (src/app.py lines 409-416) -/

/-- `Accrued = Days Since * Coupon / 360` where
`Days Since = days360_us(Last Interest Paid, SETTLEMENT)`. -/
def accruedFromDays (daysSince : ℤ) (coupon : ℚ) : ℚ :=
  (daysSince : ℚ) * coupon / 360

/-- The full accrued-interest pipeline of src/app.py for one row:
last coupon date, 30/360 day count since it, then the 360-day proration. -/
def accruedInterest (settle red : Date) (coupon : ℚ) : ℚ :=
  accruedFromDays (days360_us (last_coupon_date settle red) settle) coupon

/-! ### Yield solver (src/app.py `calculate_ytm`) -/

/-- `calculate_ytm` from src/app.py, with the `npf.rate` call abstracted as a
`solver` argument `solver nper pmt pv fv`; the `try/except` around `npf.rate`
is the solver returning `none`.  Guards and the `-10 < ytm < 50` sanity band
are exactly the source's. -/
def calculate_ytm (solver : ℚ → ℚ → ℚ → ℚ → Option ℚ)
    (price coupon years : ℚ) : Option ℚ :=
  if price ≤ 0 then Option.none
  else if years ≤ 0 ∨ coupon ≤ 0 then Option.none
  else
    match solver (years * 2) (coupon / 2) (-price) 100 with
    | Option.none => Option.none
    | Option.some rate =>
      let y := rate * 2 * 100
      if -10 < y ∧ y < 50 then Option.some y else Option.none

/-- `y = x ^ q` for positive rationals with a (nonnegative) rational exponent
`q`, expressed algebraically: `y ^ q.den = x ^ q.num`.  Used to state the
real power `(1 + r) ^ nper` that `npf.rate`'s equation contains when `nper`
is not an integer. -/
def qpow (x y q : ℚ) : Prop :=
  0 < x ∧ 0 < y ∧ y ^ q.den = x ^ q.num.toNat

/-- `r` is a root of the equation `numpy_financial.rate` solves (per its
documentation, with `when = 'end'`):
`fv + pv*(1+r)^nper + pmt*((1+r)^nper - 1)/r = 0`.
The exponent `nper` is taken as given (the source passes the float
`years * 2`, unrounded). -/
def npfRateRoot (nper pmt pv fv r : ℚ) : Prop :=
  r ≠ 0 ∧ ∃ p : ℚ, qpow (1 + r) p nper ∧ fv + pv * p + pmt * (p - 1) / r = 0

/-- Relational description of a successful run of src/app.py's
`calculate_ytm`: the guards pass, `npf.rate(nper=years*2, pmt=coupon/2,
pv=-price, fv=100)` converged to an exact root `r`, and the annualized
`y = r * 2 * 100` survived the `-10 < y < 50` band. -/
def calculate_ytm_rel (price coupon years y : ℚ) : Prop :=
  0 < price ∧ 0 < years ∧ 0 < coupon ∧
    ∃ r : ℚ, npfRateRoot (years * 2) (coupon / 2) (-price) 100 r ∧
      y = r * 2 * 100 ∧ -10 < y ∧ y < 50

/-- The price the specification's semiannual identity assigns:
`Σ_{t=1}^{N} (coupon/2) / (1+r)^t + 100 / (1+r)^N`. -/
def claimPrice (N : ℕ) (coupon r : ℚ) : ℚ :=
  (∑ t ∈ Finset.range N, (coupon / 2) / (1 + r) ^ (t + 1)) + 100 / (1 + r) ^ N

/-- Python 3's `round` on rationals: round half to even. -/
def pyRound (q : ℚ) : ℤ :=
  let f := ⌊q⌋
  if q - f < 1 / 2 then f
  else if 1 / 2 < q - f then f + 1
  else if f % 2 = 0 then f else f + 1

/-! ### Bid / Ask YTM with last-traded-price fallback (src/app.py
`get_bid_ytm`, `get_ask_ytm`) -/

/-- One joined row as `get_bid_ytm` / `get_ask_ytm` consume it. -/
structure PricedRow where
  bid : ℚ
  ask : ℚ
  ltp : ℚ
  accrued : ℚ
  coupon : ℚ
  years : ℚ

/-- `get_bid_ytm` from src/app.py: prefer the bid price; fall back to the
last traded price when the bid is not positive; otherwise no yield. -/
def get_bid_ytm (solver : ℚ → ℚ → ℚ → ℚ → Option ℚ) (r : PricedRow) : Option ℚ :=
  if 0 < r.bid then calculate_ytm solver (r.bid - r.accrued) r.coupon r.years
  else if 0 < r.ltp then calculate_ytm solver (r.ltp - r.accrued) r.coupon r.years
  else Option.none

/-- `get_ask_ytm` from src/app.py: prefer the ask price; fall back to the
last traded price when the ask is not positive; otherwise no yield. -/
def get_ask_ytm (solver : ℚ → ℚ → ℚ → ℚ → Option ℚ) (r : PricedRow) : Option ℚ :=
  if 0 < r.ask then calculate_ytm solver (r.ask - r.accrued) r.coupon r.years
  else if 0 < r.ltp then calculate_ytm solver (r.ltp - r.accrued) r.coupon r.years
  else Option.none

/-! ### Yield history tracker (src/app.py `update_yield_history`)

Python dicts are modelled as association lists with unique keys; the date
keys (ISO `"%Y-%m-%d"` strings, whose lexicographic order is chronological
order) are modelled as naturals. -/

/-- Association-list lookup: Python `m[k]` / `k in m`. -/
def alookup {κ β : Type} [DecidableEq κ] (k : κ) : List (κ × β) → Option β
  | [] => Option.none
  | (k', v) :: t => if k = k' then Option.some v else alookup k t

/-- One stored `history[date][symbol]` record: `bid_ytm` is always present
(rows are only recorded when the bid-side YTM is non-null), `ask_ytm` may be
`None`. -/
structure HistEntry where
  bid_ytm : ℚ
  ask_ytm : Option ℚ
  volume : ℚ
deriving DecidableEq

/-- `history[date]`: a per-symbol map. -/
abbrev SymMap := List (String × HistEntry)

/-- The whole yield-history store: date -> symbol -> entry. -/
abbrev History := List (Nat × SymMap)

/-- One dataframe row as `update_yield_history` consumes it. -/
structure QuoteRow where
  symbol : String
  bidYtm : Option ℚ
  askYtm : Option ℚ
  volume : ℚ

/-- The body of the row loop in `update_yield_history`: record the symbol
under today's bucket only when its bid-side YTM is non-null and the symbol
is not already present (first observation wins). -/
def addRow (m : SymMap) (r : QuoteRow) : SymMap :=
  match r.bidYtm with
  | Option.none => m
  | Option.some b =>
    if (alookup r.symbol m).isSome then m
    else m ++ [(r.symbol, ⟨b, r.askYtm, r.volume⟩)]

/-- In-place mutation of one dict bucket: `history[d] = f(history[d])`. -/
def mapAtDate (h : History) (d : Nat) (f : SymMap → SymMap) : History :=
  h.map fun p => if p.1 = d then (p.1, f p.2) else p

/-- The `# Keep only last 7 days` block of `update_yield_history`: sort the
date keys, and when more than 7 are present delete every key but the last
(most recent) 7. -/
def pruneTo7 (h : History) : History :=
  let dates := (h.map Prod.fst).mergeSort fun a b => decide (a ≤ b)
  if 7 < dates.length then
    h.filter fun p => decide (p.1 ∈ dates.drop (dates.length - 7))
  else h

/-- `update_yield_history` from src/app.py: create today's bucket when
missing, record each row first-write-wins, then prune the store to the 7
most recent (sorted) distinct dates when more than 7 are present. -/
def update_yield_history (h : History) (today : Nat) (rows : List QuoteRow) :
    History :=
  let h1 := if (alookup today h).isSome then h else h ++ [(today, [])]
  let h2 := rows.foldl (fun acc r => mapAtDate acc today (fun m => addRow m r)) h1
  pruneTo7 h2

/-- `history[date][symbol]` lookup across the store. -/
def histLookup (h : History) (d : Nat) (sym : String) : Option HistEntry :=
  (alookup d h).bind fun m => alookup sym m

/-! ### 7-day averages (src/app.py `get_7d_avg_yield`) -/

/-- `sum(l) / len(l) if l else None`. -/
def listMean (l : List ℚ) : Option ℚ :=
  if l.isEmpty then Option.none else Option.some (l.sum / l.length)

/-- `get_7d_avg_yield` from src/app.py.  Note the source tests each stored
value with Python truthiness (`if date_data[symbol]["bid_ytm"]:`), so a
recorded value of exactly `0` is skipped just like a missing one. -/
def get_7d_avg_yield (symbol : String) (h : History) :
    Option ℚ × Option ℚ × Option ℚ :=
  let entries := h.filterMap fun p => alookup symbol p.2
  let bids := entries.filterMap fun e =>
    if e.bid_ytm ≠ 0 then Option.some e.bid_ytm else Option.none
  let asks := entries.filterMap fun e =>
    match e.ask_ytm with
    | Option.some a => if a ≠ 0 then Option.some a else Option.none
    | Option.none => Option.none
  let vols := entries.filterMap fun e =>
    if e.volume ≠ 0 then Option.some e.volume else Option.none
  (listMean bids, listMean asks, listMean vols)

/-- The specification's notion of the available bid-side data points for a
symbol: every recorded `bid_ytm` (it is never missing once recorded). -/
def specAvailableBids (symbol : String) (h : History) : List ℚ :=
  (h.filterMap fun p => alookup symbol p.2).map HistEntry.bid_ytm

/-- The specification's notion of the available ask-side data points:
every non-missing recorded `ask_ytm`. -/
def specAvailableAsks (symbol : String) (h : History) : List ℚ :=
  (h.filterMap fun p => alookup symbol p.2).filterMap HistEntry.ask_ytm

/-- The specification's notion of the available volume data points: every
recorded `volume`. -/
def specAvailableVols (symbol : String) (h : History) : List ℚ :=
  (h.filterMap fun p => alookup symbol p.2).map HistEntry.volume

/-! ### Opportunity scanner (src/app.py `generate_opportunities`) -/

inductive SignalKind
  | BUY
  | SELL
  | VOLUME
  | LIQUID
deriving DecidableEq, Repr

/-- One emitted signal (symbol, kind and its sort key). -/
structure Signal where
  symbol : String
  kind : SignalKind
  priority : ℚ
deriving DecidableEq, Repr

/-- One dataframe row as the scanner consumes it: live quote fields plus the
row's `7D Avg` dict `(bid_avg, ask_avg, vol_avg)`. -/
structure ScanRow where
  symbol : String
  volume : ℚ
  bidYtm : Option ℚ
  askYtm : Option ℚ
  spread : ℚ
  avgBid : Option ℚ
  avgAsk : Option ℚ
  avgVol : Option ℚ

/-- The `# High Ask YTM = BUY opportunity` block: emitted when the ask YTM
is present, the stored ask average is truthy (present and nonzero), and the
deviation strictly exceeds the threshold; priority is the deviation. -/
def buySignal (threshold : ℚ) (r : ScanRow) : List Signal :=
  match r.askYtm, r.avgAsk with
  | Option.some y, Option.some a =>
    if a ≠ 0 ∧ threshold < y - a then [⟨r.symbol, SignalKind.BUY, y - a⟩] else []
  | _, _ => []

/-- The `# Low Bid YTM = SELL opportunity` block. -/
def sellSignal (threshold : ℚ) (r : ScanRow) : List Signal :=
  match r.bidYtm, r.avgBid with
  | Option.some y, Option.some a =>
    if a ≠ 0 ∧ threshold < a - y then [⟨r.symbol, SignalKind.SELL, a - y⟩] else []
  | _, _ => []

/-- The `# Volume spike` block; priority is the volume multiple. -/
def volumeSignal (volMult : ℚ) (r : ScanRow) : List Signal :=
  match r.avgVol with
  | Option.some a =>
    if a ≠ 0 ∧ a * volMult < r.volume then
      [⟨r.symbol, SignalKind.VOLUME, r.volume / a⟩]
    else []
  | Option.none => []

/-- The `# Tight spread = good liquidity` block. -/
def liquidSignal (r : ScanRow) : List Signal :=
  if 0 < r.spread ∧ r.spread < 1 / 10 then
    [⟨r.symbol, SignalKind.LIQUID, 1 / 10 - r.spread⟩]
  else []

/-- The per-bond body of `generate_opportunities`: up to one signal of each
of the four kinds, appended in source order.  Each stored average is tested
with Python truthiness, so `None` and an average of exactly `0` both
suppress the dependent signal. -/
def bondSignals (threshold volMult : ℚ) (r : ScanRow) : List Signal :=
  buySignal threshold r ++ sellSignal threshold r ++ volumeSignal volMult r
    ++ liquidSignal r

/-- `generate_opportunities` from src/app.py: skip bonds under the volume
floor, pool every bond's signals, stable-sort descending by priority
(Python's `sort(key=..., reverse=True)`), and truncate to the top N. -/
def generate_opportunities (rows : List ScanRow) (threshold volMult minVol : ℚ)
    (topN : ℕ) : List Signal :=
  let pooled := rows.foldl
    (fun acc r =>
      if r.volume < minVol then acc else acc ++ bondSignals threshold volMult r)
    []
  (pooled.mergeSort fun a b => decide (b.priority ≤ a.priority)).take topN

/-! ### Alert evaluator (src/app.py `alert_status`) -/

inductive AlertStatus
  | NONE
  | HIT
  | NEAR
  | FAR
deriving DecidableEq, Repr

/-- A stored per-symbol alert configuration. -/
structure Alert where
  side : String
  target : ℚ
  tolerance : ℚ

/-- `alert_status` from src/app.py: `none` models a symbol with no stored
alert; the `"—"` placeholder the source returns is `AlertStatus.NONE`. -/
def alert_status (a : Option Alert) (bid ask : ℚ) : AlertStatus :=
  match a with
  | Option.none => AlertStatus.NONE
  | Option.some a =>
    if a.target = 0 then AlertStatus.NONE
    else if a.side = "SELL" then
      if bid = 0 then AlertStatus.NONE
      else if a.target ≤ bid then AlertStatus.HIT
      else if a.target - bid ≤ a.tolerance then AlertStatus.NEAR
      else AlertStatus.FAR
    else if a.side = "BUY" then
      if ask = 0 then AlertStatus.NONE
      else if ask ≤ a.target then AlertStatus.HIT
      else if ask - a.target ≤ a.tolerance then AlertStatus.NEAR
      else AlertStatus.FAR
    else AlertStatus.NONE

/-! ### Relative-value engine -/

/-- Modelled from the spec: the Relative-Value Engine (spec section 4.6) has
no implementation in src/ (neither source file computes `relativeValueBps`).
Per the spec's words: each group's mean YTM is computed and
`relativeValueBps = (bondYtm - groupMeanYtm) * 100`. -/
def relativeValueBps (group : List ℚ) (y : ℚ) : ℚ :=
  (y - group.sum / group.length) * 100

/-- Modelled from the spec: bonds with non-null ytm, tagged with their peer
key, each receive the deviation from the mean YTM of the bonds sharing
their key. -/
def assignRelValue (bonds : List (String × ℚ)) : List (String × ℚ) :=
  bonds.map fun b =>
    (b.1, relativeValueBps ((bonds.filter fun c => c.1 = b.1).map Prod.snd) b.2)

/-! ## Claim theorems -/

/-- C1: `calculate_ytm` (src/app.py) returns `None` — and never propagates an
exception — for every non-positive price, non-positive years or non-positive
coupon, for every input on which the `npf.rate` root-finder fails to return a
value, and whenever the solved annualized yield falls outside the plausible
band from -10 to 50 percent. -/
theorem calculate_ytm_error_handling
    (solver : ℚ → ℚ → ℚ → ℚ → Option ℚ) (price coupon years : ℚ) :
    (price ≤ 0 → calculate_ytm solver price coupon years = Option.none) ∧
    (years ≤ 0 → calculate_ytm solver price coupon years = Option.none) ∧
    (coupon ≤ 0 → calculate_ytm solver price coupon years = Option.none) ∧
    (solver (years * 2) (coupon / 2) (-price) 100 = Option.none →
      calculate_ytm solver price coupon years = Option.none) ∧
    (∀ r : ℚ, solver (years * 2) (coupon / 2) (-price) 100 = Option.some r →
      r * 2 * 100 < -10 ∨ 50 < r * 2 * 100 →
      calculate_ytm solver price coupon years = Option.none) := by
  refine ⟨fun h => ?_, fun h => ?_, fun h => ?_, fun h => ?_, fun r hr hband => ?_⟩
  · simp [calculate_ytm, h]
  · by_cases hp : price ≤ 0 <;> simp [calculate_ytm, hp, h]
  · by_cases hp : price ≤ 0 <;> simp [calculate_ytm, hp, h]
  · by_cases hp : price ≤ 0
    · simp [calculate_ytm, hp]
    · by_cases hyc : years ≤ 0 ∨ coupon ≤ 0 <;> simp [calculate_ytm, hp, hyc, h]
  · by_cases hp : price ≤ 0
    · simp [calculate_ytm, hp]
    · by_cases hyc : years ≤ 0 ∨ coupon ≤ 0
      · simp [calculate_ytm, hp, hyc]
      · simp only [calculate_ytm, if_neg hp, if_neg hyc, hr]
        rw [if_neg]
        rintro ⟨h1, h2⟩
        rcases hband with h | h <;> linarith

/-- Witness for C1 at concrete inputs: a negative price, a failing solver,
and a solver result whose annualized yield (100) exceeds the band. -/
theorem calculate_ytm_error_handling_witness :
    calculate_ytm (fun _ _ _ _ => Option.some (1 / 2)) (-5) 8 10 = Option.none ∧
    calculate_ytm (fun _ _ _ _ => Option.none) 95 8 10 = Option.none ∧
    calculate_ytm (fun _ _ _ _ => Option.some (1 / 2)) 95 8 10 = Option.none := by
  refine ⟨?_, ?_, ?_⟩
  · exact (calculate_ytm_error_handling _ (-5) 8 10).1 (by norm_num)
  · exact (calculate_ytm_error_handling _ 95 8 10).2.2.2.1 rfl
  · exact (calculate_ytm_error_handling _ 95 8 10).2.2.2.2 (1 / 2) rfl
      (Or.inr (by norm_num))

/-- C8: `alert_status` (src/app.py).  With no stored alert or a zero target
the status is NONE; on the SELL side a zero bid gives NONE, `bid >= target`
gives HIT, else `target - bid <= tolerance` gives NEAR, else FAR; the BUY
side is symmetric on the ask with `ask <= target` and `ask - target`. -/
theorem alert_status_spec (a : Alert) (bid ask : ℚ) :
    (alert_status Option.none bid ask = AlertStatus.NONE) ∧
    (a.target = 0 → alert_status (Option.some a) bid ask = AlertStatus.NONE) ∧
    (a.side = "SELL" → a.target ≠ 0 →
      (bid = 0 → alert_status (Option.some a) bid ask = AlertStatus.NONE) ∧
      (bid ≠ 0 → a.target ≤ bid →
        alert_status (Option.some a) bid ask = AlertStatus.HIT) ∧
      (bid ≠ 0 → bid < a.target → a.target - bid ≤ a.tolerance →
        alert_status (Option.some a) bid ask = AlertStatus.NEAR) ∧
      (bid ≠ 0 → bid < a.target → a.tolerance < a.target - bid →
        alert_status (Option.some a) bid ask = AlertStatus.FAR)) ∧
    (a.side = "BUY" → a.target ≠ 0 →
      (ask = 0 → alert_status (Option.some a) bid ask = AlertStatus.NONE) ∧
      (ask ≠ 0 → ask ≤ a.target →
        alert_status (Option.some a) bid ask = AlertStatus.HIT) ∧
      (ask ≠ 0 → a.target < ask → ask - a.target ≤ a.tolerance →
        alert_status (Option.some a) bid ask = AlertStatus.NEAR) ∧
      (ask ≠ 0 → a.target < ask → a.tolerance < ask - a.target →
        alert_status (Option.some a) bid ask = AlertStatus.FAR)) := by
  refine ⟨rfl, fun h => by simp [alert_status, h], fun hside htz => ?_, fun hside htz => ?_⟩
  · refine ⟨fun hb => ?_, fun hb hle => ?_, fun hb hlt hnear => ?_, fun hb hlt hfar => ?_⟩
    · simp [alert_status, htz, hside, hb]
    · simp [alert_status, htz, hside, hb, hle]
    · simp [alert_status, htz, hside, hb, not_le.mpr hlt, hnear]
    · simp [alert_status, htz, hside, hb, not_le.mpr hlt, not_le.mpr hfar]
  · have hbuy : a.side ≠ "SELL" := by rw [hside]; decide
    refine ⟨fun hb => ?_, fun hb hle => ?_, fun hb hlt hnear => ?_, fun hb hlt hfar => ?_⟩
    · simp [alert_status, htz, hside, hbuy, hb]
    · simp [alert_status, htz, hside, hbuy, hb, hle]
    · simp [alert_status, htz, hside, hbuy, hb, not_le.mpr hlt, hnear]
    · simp [alert_status, htz, hside, hbuy, hb, not_le.mpr hlt, not_le.mpr hfar]

/-- Witness for C8: the specification's concrete scenario `side=SELL,
target=100, tolerance=0.02` with bids 100.00, 99.99, 99.50 and 0. -/
theorem alert_status_spec_witness :
    alert_status (Option.some ⟨"SELL", 100, 1 / 50⟩) 100 0 = AlertStatus.HIT ∧
    alert_status (Option.some ⟨"SELL", 100, 1 / 50⟩) (9999 / 100) 0 = AlertStatus.NEAR ∧
    alert_status (Option.some ⟨"SELL", 100, 1 / 50⟩) (199 / 2) 0 = AlertStatus.FAR ∧
    alert_status (Option.some ⟨"SELL", 100, 1 / 50⟩) 0 0 = AlertStatus.NONE := by
  refine ⟨?_, ?_, ?_, ?_⟩
  · exact ((alert_status_spec ⟨"SELL", 100, 1 / 50⟩ 100 0).2.2.1 rfl
      (by norm_num)).2.1 (by norm_num) (by norm_num)
  · exact ((alert_status_spec ⟨"SELL", 100, 1 / 50⟩ (9999 / 100) 0).2.2.1 rfl
      (by norm_num)).2.2.1 (by norm_num) (by norm_num) (by norm_num)
  · exact ((alert_status_spec ⟨"SELL", 100, 1 / 50⟩ (199 / 2) 0).2.2.1 rfl
      (by norm_num)).2.2.2 (by norm_num) (by norm_num) (by norm_num)
  · exact ((alert_status_spec ⟨"SELL", 100, 1 / 50⟩ 0 0).2.2.1 rfl
      (by norm_num)).1 rfl

/-- C9 (modelled from the spec; no relative-value code exists in src/):
`relativeValueBps` is the deviation from the group mean times 100, and a
bond whose peer group is just itself always gets exactly 0 bps. -/
theorem relative_value_singleton (bonds : List (String × ℚ)) (b : String × ℚ)
    (hmem : b ∈ bonds) (hsingle : bonds.filter (fun c => c.1 = b.1) = [b]) :
    (b.1, (0 : ℚ)) ∈ assignRelValue bonds ∧
    (∀ y : ℚ, relativeValueBps [y] y = 0) := by
  constructor
  · have hf : (b.1, relativeValueBps ((bonds.filter fun c => c.1 = b.1).map Prod.snd) b.2)
        ∈ assignRelValue bonds := List.mem_map_of_mem _ hmem
    rw [hsingle] at hf
    simpa [relativeValueBps] using hf
  · intro y
    simp [relativeValueBps]

/-- Witness for C9 on the one-bond collection `[("A", 7)]`. -/
theorem relative_value_singleton_witness :
    ("A", (0 : ℚ)) ∈ assignRelValue [("A", 7)] ∧
    relativeValueBps [(5 : ℚ)] 5 = 0 := by
  have h := relative_value_singleton [("A", 7)] ("A", 7) (by simp) (by simp)
  exact ⟨h.1, h.2 5⟩

/-- C10: `get_bid_ytm` / `get_ask_ytm` (src/app.py).  A zero bid (resp. ask)
with a positive last traded price computes the YTM from the last-traded
clean price `LTP - accrued`; a zero side price with a zero LTP yields null;
a positive side price uses that side's clean price. -/
theorem bid_ask_ytm_ltp_fallback (solver : ℚ → ℚ → ℚ → ℚ → Option ℚ)
    (r : PricedRow) :
    (r.bid = 0 → 0 < r.ltp →
      get_bid_ytm solver r = calculate_ytm solver (r.ltp - r.accrued) r.coupon r.years) ∧
    (r.ask = 0 → 0 < r.ltp →
      get_ask_ytm solver r = calculate_ytm solver (r.ltp - r.accrued) r.coupon r.years) ∧
    (r.bid = 0 → r.ltp = 0 → get_bid_ytm solver r = Option.none) ∧
    (r.ask = 0 → r.ltp = 0 → get_ask_ytm solver r = Option.none) ∧
    (0 < r.bid →
      get_bid_ytm solver r = calculate_ytm solver (r.bid - r.accrued) r.coupon r.years) ∧
    (0 < r.ask →
      get_ask_ytm solver r = calculate_ytm solver (r.ask - r.accrued) r.coupon r.years) := by
  refine ⟨fun hb hl => ?_, fun ha hl => ?_, fun hb hl => ?_, fun ha hl => ?_,
    fun hb => ?_, fun ha => ?_⟩
  · simp [get_bid_ytm, hb, hl]
  · simp [get_ask_ytm, ha, hl]
  · simp [get_bid_ytm, hb, hl]
  · simp [get_ask_ytm, ha, hl]
  · simp [get_bid_ytm, hb]
  · simp [get_ask_ytm, ha]

/-- Witness for C10 on a quote with zero bid/ask and LTP 100. -/
theorem bid_ask_ytm_ltp_fallback_witness :
    get_bid_ytm (fun _ _ _ _ => Option.none) ⟨0, 0, 100, 1, 8, 5⟩ =
      calculate_ytm (fun _ _ _ _ => Option.none) (100 - 1) 8 5 ∧
    get_ask_ytm (fun _ _ _ _ => Option.none) ⟨0, 0, 0, 1, 8, 5⟩ = Option.none := by
  constructor
  · exact (bid_ask_ytm_ltp_fallback (fun _ _ _ _ => Option.none)
      ⟨0, 0, 100, 1, 8, 5⟩).1 rfl (by norm_num)
  · exact (bid_ask_ytm_ltp_fallback (fun _ _ _ _ => Option.none)
      ⟨0, 0, 0, 1, 8, 5⟩).2.2.2.1 rfl rfl

/-- C2 counterexample: on the settlement date 2025-01-01 (the settlement of
Wednesday 2024-12-31) and redemption 2029-01-01 the day difference is 1461,
so src/app.py's `load_master` derives `Years = 1461 / 365.25 = 4`, which is
not `1461 / 365` as the claim states. -/
theorem load_master_years_counterexample :
    get_settlement_date ⟨2024, 12, 31⟩ = ⟨2025, 1, 1⟩ ∧
    daysBetween ⟨2025, 1, 1⟩ ⟨2029, 1, 1⟩ = 1461 ∧
    load_master ⟨2025, 1, 1⟩ [⟨"X", 7, Option.some ⟨2029, 1, 1⟩⟩] =
      [⟨"X", 7, ⟨2029, 1, 1⟩, 4⟩] ∧
    (4 : ℚ) ≠ (daysBetween ⟨2025, 1, 1⟩ ⟨2029, 1, 1⟩ : ℚ) / 365 := by
  have hd : daysBetween ⟨2025, 1, 1⟩ ⟨2029, 1, 1⟩ = 1461 := by decide
  have hy : appYearsToMaturity ⟨2025, 1, 1⟩ ⟨2029, 1, 1⟩ = 4 := by
    rw [appYearsToMaturity, hd]; norm_num
  refine ⟨by decide, hd, ?_, ?_⟩
  · simp [load_master, hy, show (0 : ℚ) < 4 by norm_num]
  · rw [hd]; norm_num

/-- C2 amended: every record `load_master` (src/app.py) outputs carries
`yearsToMaturity = (redemption - settlement).days / 365.25` (not `/ 365`;
the `/ 365` divisor is the one src/notifier.py uses) and that value is
strictly positive; any redemption date whose derived years are ≤ 0 appears
in no output record; and every parseable row with positive derived years is
kept. -/
theorem load_master_years_spec (settle : Date) (rows : List MasterRow) :
    (∀ b ∈ load_master settle rows,
      b.years = (daysBetween settle b.redemption : ℚ) / (1461 / 4) ∧ 0 < b.years) ∧
    (∀ red : Date, appYearsToMaturity settle red ≤ 0 →
      ∀ b ∈ load_master settle rows, b.redemption ≠ red) ∧
    (∀ r ∈ rows, ∀ red, r.redemption = Option.some red →
      0 < appYearsToMaturity settle red →
      (⟨r.symbol, r.coupon, red, appYearsToMaturity settle red⟩ : BondRef) ∈
        load_master settle rows) ∧
    (∀ red : Date,
      notifierYearsToMaturity settle red = (daysBetween settle red : ℚ) / 365) := by
  refine ⟨fun b hb => ?_, fun red hle b hb hbr => ?_, fun r hr red hred hpos => ?_,
    fun red => rfl⟩
  · rw [load_master, List.mem_filterMap] at hb
    obtain ⟨r, _, hf⟩ := hb
    cases hred : r.redemption with
    | none => rw [hred] at hf; simp at hf
    | some red =>
      rw [hred] at hf
      simp only [] at hf
      by_cases hpos : 0 < appYearsToMaturity settle red
      · rw [if_pos hpos, Option.some_inj] at hf
        subst hf
        exact ⟨rfl, hpos⟩
      · rw [if_neg hpos] at hf; simp at hf
  · rw [load_master, List.mem_filterMap] at hb
    obtain ⟨r, _, hf⟩ := hb
    cases hred : r.redemption with
    | none => rw [hred] at hf; simp at hf
    | some red' =>
      rw [hred] at hf
      simp only [] at hf
      by_cases hpos : 0 < appYearsToMaturity settle red'
      · rw [if_pos hpos, Option.some_inj] at hf
        subst hf
        simp only [] at hbr
        subst hbr
        exact absurd hpos (not_lt.mpr hle)
      · rw [if_neg hpos] at hf; simp at hf
  · rw [load_master, List.mem_filterMap]
    exact ⟨r, hr, by rw [hred]; simp only [if_pos hpos]⟩

/-- Witness for C2's amended theorem on the concrete row of the
counterexample. -/
theorem load_master_years_spec_witness :
    (⟨"X", 7, ⟨2029, 1, 1⟩, appYearsToMaturity ⟨2025, 1, 1⟩ ⟨2029, 1, 1⟩⟩ : BondRef) ∈
      load_master ⟨2025, 1, 1⟩ [⟨"X", 7, Option.some ⟨2029, 1, 1⟩⟩] := by
  have hpos : 0 < appYearsToMaturity ⟨2025, 1, 1⟩ ⟨2029, 1, 1⟩ := by
    have hd : daysBetween ⟨2025, 1, 1⟩ ⟨2029, 1, 1⟩ = 1461 := by decide
    rw [appYearsToMaturity, hd]; norm_num
  exact (load_master_years_spec ⟨2025, 1, 1⟩ _).2.2.1 _
    (List.mem_singleton.mpr rfl) _ rfl hpos

/-- The 30/360 day count of a date with itself is zero. -/
theorem days360_us_self (d : Date) : days360_us d d = 0 := by
  by_cases hd : d.day = 31 <;> simp [days360_us, hd]

/-- C4 counterexample: for redemption 2030-07-30 and the (reachable)
settlement 2025-01-31 the last coupon date is 2025-01-30, a *different*
date, yet the 30/360 count is 0 (day-31 clamp) and so the accrued interest
is 0 even with a positive coupon — refuting "zero exactly when settlement
equals the last coupon date". -/
theorem accrued_zero_counterexample :
    get_settlement_date ⟨2025, 1, 30⟩ = ⟨2025, 1, 31⟩ ∧
    last_coupon_date ⟨2025, 1, 31⟩ ⟨2030, 7, 30⟩ = ⟨2025, 1, 30⟩ ∧
    (⟨2025, 1, 30⟩ : Date) ≠ ⟨2025, 1, 31⟩ ∧
    days360_us ⟨2025, 1, 30⟩ ⟨2025, 1, 31⟩ = 0 ∧
    accruedInterest ⟨2025, 1, 31⟩ ⟨2030, 7, 30⟩ 10 = 0 := by
  have h1 : last_coupon_date ⟨2025, 1, 31⟩ ⟨2030, 7, 30⟩ = ⟨2025, 1, 30⟩ := by decide
  have h2 : days360_us ⟨2025, 1, 30⟩ ⟨2025, 1, 31⟩ = 0 := by decide
  refine ⟨by decide, h1, by decide, h2, ?_⟩
  rw [accruedInterest, h1, h2]
  simp [accruedFromDays]

/-- C4 amended: accrued interest is `days360(lastCoupon, settlement) *
coupon / 360`, it vanishes *iff that 30/360 day count is zero* (which holds
whenever settlement equals the last coupon date, but also for certain
distinct dates under the day-31 clamp), and it grows strictly with
`daysSinceCoupon` for a positive coupon. -/
theorem accrued_interest_spec (settle red : Date) (c : ℚ) (hc : 0 < c) :
    (last_coupon_date settle red = settle → accruedInterest settle red c = 0) ∧
    (accruedInterest settle red c = 0 ↔
      days360_us (last_coupon_date settle red) settle = 0) ∧
    (∀ d1 d2 : ℤ, d1 < d2 → accruedFromDays d1 c < accruedFromDays d2 c) := by
  refine ⟨fun h => ?_, ?_, fun d1 d2 hlt => ?_⟩
  · rw [accruedInterest, h, days360_us_self]
    simp [accruedFromDays]
  · rw [accruedInterest, accruedFromDays, div_eq_zero_iff]
    constructor
    · rintro (h | h)
      · rcases mul_eq_zero.mp h with h' | h'
        · exact_mod_cast h'
        · exact absurd h' (ne_of_gt hc)
      · norm_num at h
    · intro h
      rw [h]
      simp
  · rw [accruedFromDays, accruedFromDays]
    have hd : (d1 : ℚ) < (d2 : ℚ) := by exact_mod_cast hlt
    exact div_lt_div_of_pos_right (mul_lt_mul_of_pos_right hd hc) (by norm_num)

/-- Witness for C4's amended theorem: a bond whose last coupon date equals
the settlement date (accrued 0), and strict growth from 30 to 60 days. -/
theorem accrued_interest_spec_witness :
    accruedInterest ⟨2025, 1, 15⟩ ⟨2030, 1, 15⟩ 10 = 0 ∧
    accruedFromDays 30 10 < accruedFromDays 60 10 := by
  have h := accrued_interest_spec ⟨2025, 1, 15⟩ ⟨2030, 1, 15⟩ 10 (by norm_num)
  exact ⟨h.1 (by decide), h.2.2 30 60 (by decide)⟩

/-- Truthiness-filtering a projected field is filtering the projected list. -/
theorem filterMap_truthy_eq {α : Type} (f : α → ℚ) (l : List α) :
    (l.filterMap fun e => if f e ≠ 0 then Option.some (f e) else Option.none)
      = (l.map f).filter fun x => decide (x ≠ 0) := by
  induction l with
  | nil => rfl
  | cons a t ih => by_cases hfa : f a = 0 <;> simp [hfa] <;> simpa using ih

/-- Truthiness-filtering an optional field is filtering the present values. -/
theorem filterMap_truthy_opt_eq (l : List HistEntry) :
    (l.filterMap fun e =>
        match e.ask_ytm with
        | Option.some a => if a ≠ 0 then Option.some a else Option.none
        | Option.none => Option.none)
      = (l.filterMap HistEntry.ask_ytm).filter fun x => decide (x ≠ 0) := by
  induction l with
  | nil => rfl
  | cons e t ih =>
    cases he : e.ask_ytm with
    | none =>
      simp [List.filterMap_cons, he]
      simpa using ih
    | some a =>
      by_cases ha : a = 0 <;> simp [List.filterMap_cons, he, ha] <;> simpa using ih

/-- `listMean` is null exactly on the empty list. -/
theorem listMean_eq_none_iff (l : List ℚ) : listMean l = Option.none ↔ l = [] := by
  rw [listMean]
  split_ifs with he
  · simpa using List.isEmpty_iff.mp he
  · simpa using fun hl => he (by rw [hl]; rfl)

/-- C6 counterexample: a history holding a single recorded point with
`bid_ytm = 0` (a value inside the solver's plausible band).  The point is
available and non-missing, yet `get_7d_avg_yield` returns a null bid
average (Python truthiness skips the zero), where the claim's plain mean of
the available points would be `0`. -/
theorem get_7d_avg_yield_counterexample :
    (get_7d_avg_yield "A" [(0, [("A", ⟨0, Option.none, 0⟩)])]).1 = Option.none ∧
    specAvailableBids "A" [(0, [("A", ⟨0, Option.none, 0⟩)])] = [0] ∧
    listMean [(0 : ℚ)] = Option.some 0 := by
  refine ⟨?_, ?_, ?_⟩
  · simp [get_7d_avg_yield, alookup, listMean]
  · simp [specAvailableBids, alookup]
  · norm_num [listMean]

/-- C6 amended: each sub-average of `get_7d_avg_yield` (src/app.py) is the
plain arithmetic mean of the symbol's available *nonzero* recorded points
(Python truthiness discards recorded zeros along with missing values), and
is null exactly when every available point is zero or missing. -/
theorem get_7d_avg_yield_amended (symbol : String) (h : History) :
    ((get_7d_avg_yield symbol h).1 =
      listMean ((specAvailableBids symbol h).filter fun x => decide (x ≠ 0))) ∧
    ((get_7d_avg_yield symbol h).1 = Option.none ↔
      ∀ x ∈ specAvailableBids symbol h, x = 0) ∧
    ((get_7d_avg_yield symbol h).2.1 =
      listMean ((specAvailableAsks symbol h).filter fun x => decide (x ≠ 0))) ∧
    ((get_7d_avg_yield symbol h).2.1 = Option.none ↔
      ∀ x ∈ specAvailableAsks symbol h, x = 0) ∧
    ((get_7d_avg_yield symbol h).2.2 =
      listMean ((specAvailableVols symbol h).filter fun x => decide (x ≠ 0))) ∧
    ((get_7d_avg_yield symbol h).2.2 = Option.none ↔
      ∀ x ∈ specAvailableVols symbol h, x = 0) := by
  have hbid : (get_7d_avg_yield symbol h).1 =
      listMean ((specAvailableBids symbol h).filter fun x => decide (x ≠ 0)) := by
    rw [get_7d_avg_yield, specAvailableBids, filterMap_truthy_eq]
  have hask : (get_7d_avg_yield symbol h).2.1 =
      listMean ((specAvailableAsks symbol h).filter fun x => decide (x ≠ 0)) := by
    rw [get_7d_avg_yield, specAvailableAsks, filterMap_truthy_opt_eq]
  have hvol : (get_7d_avg_yield symbol h).2.2 =
      listMean ((specAvailableVols symbol h).filter fun x => decide (x ≠ 0)) := by
    simp only [get_7d_avg_yield]
    rw [specAvailableVols, filterMap_truthy_eq]
  refine ⟨hbid, ?_, hask, ?_, hvol, ?_⟩
  · rw [hbid, listMean_eq_none_iff, List.filter_eq_nil_iff]
    simp
  · rw [hask, listMean_eq_none_iff, List.filter_eq_nil_iff]
    simp
  · rw [hvol, listMean_eq_none_iff, List.filter_eq_nil_iff]
    simp

/-- Geometric-series kernel of the spec's pricing identity: the summed
coupon strip of `claimPrice`, cleared of denominators. -/
theorem sum_coupon_div (n : ℕ) (c r : ℚ) (hx : (1 : ℚ) + r ≠ 0) :
    (∑ t ∈ Finset.range n, (c / 2) / (1 + r) ^ (t + 1)) * ((1 + r) ^ n * r)
      = (c / 2) * ((1 + r) ^ n - 1) := by
  induction n with
  | zero => simp
  | succ n ih =>
    rw [Finset.sum_range_succ, add_mul]
    have hxp : ((1 : ℚ) + r) ^ (n + 1) ≠ 0 := pow_ne_zero _ hx
    have key : (c / 2) / (1 + r) ^ (n + 1) * ((1 + r) ^ (n + 1) * r)
        = (c / 2) * r := by
      field_simp
      ring
    rw [key]
    linear_combination (1 + r) * ih

/-- C3 counterexample: at `years = 3/4` the source passes `nper = years * 2
= 1.5` to `npf.rate` unrounded, but the claim asserts `N = round(years*2) =
2` semiannual periods.  With periodic rate `r = 21/100` (annualized yield
42, inside the band) the exact price solving the unrounded npf.rate
equation is `4531000/55902 ≈ 81.05`, while the claim's 2-period sum
identity at that rate prices the bond at `1110500/14641 ≈ 75.85`. -/
theorem calculate_ytm_identity_counterexample :
    calculate_ytm_rel (4531000 / 55902) 10 (3 / 4) 42 ∧
    pyRound (3 / 4 * 2) = 2 ∧
    (4531000 / 55902 : ℚ) ≠ claimPrice 2 10 (42 / 200) := by
  have h32 : ((3 : ℚ) / 4) * 2 = Rat.divInt 3 2 := by
    rw [Rat.divInt_eq_div]; norm_num
  have hfloor : ⌊((3 : ℚ) / 4) * 2⌋ = 1 := by
    rw [Int.floor_eq_iff]
    norm_num
  refine ⟨⟨by norm_num, by norm_num, by norm_num, 21 / 100,
    ⟨by norm_num, 1331 / 1000, ⟨by norm_num, by norm_num, ?_⟩, ?_⟩,
    by norm_num, by norm_num, by norm_num⟩, ?_, ?_⟩
  · rw [h32, Rat.den_mk, Rat.num_mk, show Int.sign 2 = 1 from by decide]
    norm_num [Int.gcd, show Int.toNat 3 = 3 from by decide]
  · norm_num
  · simp only [pyRound, hfloor]
    norm_num
  · rw [claimPrice]
    rw [Finset.sum_range_succ, Finset.sum_range_succ, Finset.sum_range_zero]
    norm_num

/-- C3 amended: a successful `calculate_ytm` solve returns `y = 2*r*100`
for a root `r` of the npf.rate equation with the *unrounded* exponent
`years * 2`; whenever `years * 2` is exactly a whole number of semiannual
periods `N`, that root equation is precisely the spec's sum identity
`price = Σ_{t=1}^{N} (coupon/2)/(1+r)^t + 100/(1+r)^N`.  (No rounding is
applied by the source; for fractional `years * 2` the identities differ, as
the counterexample shows.) -/
theorem calculate_ytm_identity_amended (price coupon years y : ℚ) (N : ℕ)
    (hrel : calculate_ytm_rel price coupon years y) (hN : years * 2 = (N : ℚ)) :
    price = claimPrice N coupon (y / 200) := by
  obtain ⟨hp, hy, hc, r, ⟨hr0, p, ⟨hx, hppos, hq⟩, heq⟩, hyr, hb1, hb2⟩ := hrel
  have hry : y / 200 = r := by rw [hyr]; ring
  rw [hry]
  rw [hN] at hq
  simp only [Rat.den_natCast, Rat.num_natCast, Int.toNat_ofNat, pow_one] at hq
  have hxne : (1 : ℚ) + r ≠ 0 := ne_of_gt hx
  have hpowne : ((1 : ℚ) + r) ^ N ≠ 0 := pow_ne_zero _ hxne
  rw [hq] at heq
  have heqr : (100 + -price * (1 + r) ^ N
      + coupon / 2 * ((1 + r) ^ N - 1) / r) * r = 0 := by
    rw [heq]; ring
  rw [add_mul, add_mul, div_mul_cancel₀ _ hr0] at heqr
  have heq' : price * ((1 + r) ^ N * r)
      = coupon / 2 * ((1 + r) ^ N - 1) + 100 * r := by
    linear_combination -heqr
  have hs := sum_coupon_div N coupon r hxne
  have h100 : (100 : ℚ) / (1 + r) ^ N * ((1 + r) ^ N * r) = 100 * r := by
    field_simp
    ring
  have hfin : claimPrice N coupon r * ((1 + r) ^ N * r)
      = coupon / 2 * ((1 + r) ^ N - 1) + 100 * r := by
    rw [claimPrice, add_mul, hs, h100]
  exact mul_right_cancel₀ (mul_ne_zero hpowne hr0) (heq'.trans hfin.symm)

/-- Witness for C3's amended theorem: at `years = 1` (an exact 2-period
bond), coupon 10 and periodic rate 1/10 (annualized 20), the npf.rate root
equation prices the bond at `11050/121` and the 2-period sum identity
agrees. -/
theorem calculate_ytm_identity_amended_witness :
    (11050 / 121 : ℚ) = claimPrice 2 10 (20 / 200) := by
  have h2 : ((1 : ℚ) * 2) = ((2 : ℕ) : ℚ) := by norm_num
  refine calculate_ytm_identity_amended (11050 / 121) 10 1 20 2
    ⟨by norm_num, by norm_num, by norm_num, 1 / 10,
      ⟨by norm_num, 121 / 100, ⟨by norm_num, by norm_num, ?_⟩, ?_⟩,
      by norm_num, by norm_num, by norm_num⟩ h2
  · rw [h2]
    simp only [Rat.den_natCast, Rat.num_natCast, Int.toNat_ofNat, pow_one]
    norm_num
  · norm_num

/-! ### Association-list lemmas for the history tracker -/

/-- A key found in the left part of an append is still found there. -/
theorem alookup_append_left {κ β : Type} [DecidableEq κ] (k : κ) (v : β)
    (l l' : List (κ × β)) (h : alookup k l = Option.some v) :
    alookup k (l ++ l') = Option.some v := by
  induction l with
  | nil => simp [alookup] at h
  | cons p t ih =>
    rw [alookup] at h
    rw [List.cons_append, alookup]
    by_cases hk : k = p.1
    · rwa [if_pos hk] at h ⊢
    · rw [if_neg hk] at h ⊢
      exact ih h

/-- A found key is among the stored keys. -/
theorem alookup_mem_keys {κ β : Type} [DecidableEq κ] (k : κ) (v : β)
    (l : List (κ × β)) (h : alookup k l = Option.some v) :
    k ∈ l.map Prod.fst := by
  induction l with
  | nil => simp [alookup] at h
  | cons p t ih =>
    rw [alookup] at h
    by_cases hk : k = p.1
    · simp [hk]
    · rw [if_neg hk] at h
      simp [ih h]

/-- Mutating one bucket leaves the key list unchanged. -/
theorem mapAtDate_keys (h : History) (d : Nat) (f : SymMap → SymMap) :
    (mapAtDate h d f).map Prod.fst = h.map Prod.fst := by
  induction h with
  | nil => rfl
  | cons p t ih =>
    simp only [mapAtDate, List.map_cons] at ih ⊢
    by_cases hp : p.1 = d
    · simp [hp, ih]
    · simp [hp, ih]

/-- Looking up the mutated bucket sees the mutation. -/
theorem alookup_mapAtDate (h : History) (d : Nat) (f : SymMap → SymMap) :
    alookup d (mapAtDate h d f) = (alookup d h).map f := by
  induction h with
  | nil => rfl
  | cons p t ih =>
    obtain ⟨k, v⟩ := p
    by_cases hk : k = d
    · subst hk
      have hhead : (if (k, v).1 = k then ((k, v).1, f (k, v).2) else (k, v))
          = (k, f v) := by simp
      rw [mapAtDate, List.map_cons, hhead]
      simp [alookup]
    · have hd : ¬d = k := fun hc => hk hc.symm
      have hhead : (if (k, v).1 = d then ((k, v).1, f (k, v).2) else (k, v))
          = (k, v) := by simp [hk]
      rw [mapAtDate, List.map_cons, hhead]
      simp only [alookup]
      rw [if_neg hd, if_neg hd]
      simp only [mapAtDate] at ih
      exact ih

/-- `addRow` never overwrites an entry that is already present. -/
theorem alookup_addRow (m : SymMap) (r : QuoteRow) (sym : String) (e : HistEntry)
    (h : alookup sym m = Option.some e) :
    alookup sym (addRow m r) = Option.some e := by
  cases hb : r.bidYtm with
  | none => simp only [addRow, hb]; exact h
  | some b =>
    simp only [addRow, hb]
    by_cases hs : (alookup r.symbol m).isSome
    · rw [if_pos hs]; exact h
    · rw [if_neg hs]
      exact alookup_append_left _ _ _ _ h

/-- The recording loop of `update_yield_history` leaves the key list
unchanged. -/
theorem scanFoldl_keys (rows : List QuoteRow) (today : Nat) (h1 : History) :
    ((rows.foldl (fun acc r => mapAtDate acc today fun m => addRow m r) h1).map
      Prod.fst) = h1.map Prod.fst := by
  induction rows generalizing h1 with
  | nil => rfl
  | cons r t ih => rw [List.foldl_cons, ih, mapAtDate_keys]

/-- The recording loop never overwrites an entry already present for
`today`. -/
theorem scanFoldl_lookup (rows : List QuoteRow) (today : Nat) (h1 : History)
    (sym : String) (e : HistEntry) (h : histLookup h1 today sym = Option.some e) :
    histLookup (rows.foldl (fun acc r => mapAtDate acc today fun m => addRow m r) h1)
      today sym = Option.some e := by
  induction rows generalizing h1 with
  | nil => exact h
  | cons r t ih =>
    rw [List.foldl_cons]
    apply ih
    rw [histLookup] at h ⊢
    obtain ⟨m, hm, hsm⟩ := Option.bind_eq_some.mp h
    rw [alookup_mapAtDate, hm]
    exact Option.bind_eq_some.mpr ⟨addRow m r, rfl, alookup_addRow m r sym e hsm⟩

/-- Filtering an association list by a key set behaves as a keyed lookup
restriction. -/
theorem alookup_filter_keyset (h : History) (S : List Nat) (d : Nat) :
    alookup d (h.filter fun p => decide (p.1 ∈ S))
      = if d ∈ S then alookup d h else Option.none := by
  induction h with
  | nil => simp [alookup]
  | cons p t ih =>
    by_cases hp : p.1 ∈ S
    · rw [List.filter_cons_of_pos (by simpa using hp)]
      by_cases hd : d = p.1
      · subst hd
        rw [alookup, if_pos rfl, if_pos hp, alookup, if_pos rfl]
      · rw [alookup, if_neg hd, ih]
        by_cases hdS : d ∈ S
        · rw [if_pos hdS, if_pos hdS, alookup, if_neg hd]
        · rw [if_neg hdS, if_neg hdS]
    · rw [List.filter_cons_of_neg (by simpa using hp), ih]
      by_cases hdS : d ∈ S
      · have hd : ¬d = p.1 := fun hc => hp (hc ▸ hdS)
        rw [if_pos hdS, if_pos hdS, alookup, if_neg hd]
      · rw [if_neg hdS, if_neg hdS]

/-- An upper bound that occurs in an ascending-sorted list survives
dropping any proper prefix. -/
theorem mem_drop_of_upper (ds : List Nat) (today : Nat) (k : Nat)
    (hs : ds.Pairwise fun a b => a ≤ b) (hmem : today ∈ ds)
    (hmax : ∀ d ∈ ds, d ≤ today) (hk : k < ds.length) :
    today ∈ ds.drop k := by
  have hsplit := List.take_append_drop k ds
  rcases List.mem_append.mp (hsplit.symm ▸ hmem) with htake | hdrop
  · have hlen : (ds.drop k).length = ds.length - k := List.length_drop k ds
    have hne : ds.drop k ≠ [] := by
      intro hnil
      rw [hnil] at hlen
      simp at hlen
      omega
    obtain ⟨m, hm⟩ := List.exists_mem_of_ne_nil _ hne
    have hcross : ∀ a ∈ ds.take k, ∀ b ∈ ds.drop k, a ≤ b :=
      (List.pairwise_append.mp (hsplit.symm ▸ hs)).2.2
    have h1 : today ≤ m := hcross today htake m hm
    have h2 : m ≤ today := hmax m (hsplit ▸ List.mem_append.mpr (Or.inr hm))
    have : today = m := le_antisymm h1 h2
    exact this ▸ hm
  · exact hdrop

/-- The pruning stage keeps at most 7 distinct date keys, whatever the
input. -/
theorem pruneTo7_card_le (h : History) :
    ((pruneTo7 h).map Prod.fst).toFinset.card ≤ 7 := by
  simp only [pruneTo7]
  by_cases hlen :
      7 < ((h.map Prod.fst).mergeSort fun a b => decide (a ≤ b)).length
  · rw [if_pos hlen]
    set dates := (h.map Prod.fst).mergeSort fun a b => decide (a ≤ b) with hdates
    set keep := dates.drop (dates.length - 7) with hkeep
    have hkl : keep.length = 7 := by
      rw [hkeep, List.length_drop]
      omega
    have hsub : ((h.filter fun p => decide (p.1 ∈ keep)).map Prod.fst).toFinset
        ⊆ keep.toFinset := by
      intro x hx
      rw [List.mem_toFinset] at hx ⊢
      obtain ⟨p, hp, hpx⟩ := List.mem_map.mp hx
      have := List.of_mem_filter hp
      rw [← hpx]
      simpa using this
    calc ((h.filter fun p => decide (p.1 ∈ keep)).map Prod.fst).toFinset.card
        ≤ keep.toFinset.card := Finset.card_le_card hsub
      _ ≤ keep.length := keep.toFinset_card_le
      _ = 7 := hkl
  · rw [if_neg hlen]
    push_neg at hlen
    have h1 : (h.map Prod.fst).toFinset.card ≤ (h.map Prod.fst).length :=
      (h.map Prod.fst).toFinset_card_le
    have h2 : ((h.map Prod.fst).mergeSort fun a b => decide (a ≤ b)).length
        = (h.map Prod.fst).length := List.length_mergeSort _
    omega

/-- When `today` is the latest stored date, pruning keeps its bucket
intact. -/
theorem pruneTo7_lookup_today (h2 : History) (today : Nat)
    (hmem : today ∈ h2.map Prod.fst)
    (hmax : ∀ d ∈ h2.map Prod.fst, d ≤ today) :
    alookup today (pruneTo7 h2) = alookup today h2 := by
  simp only [pruneTo7]
  by_cases hlen :
      7 < ((h2.map Prod.fst).mergeSort fun a b => decide (a ≤ b)).length
  · rw [if_pos hlen, alookup_filter_keyset, if_pos]
    set dates := (h2.map Prod.fst).mergeSort fun a b => decide (a ≤ b) with hdates
    have hsorted : dates.Pairwise fun a b => a ≤ b := by
      have hp := @List.sorted_mergeSort Nat (fun a b : Nat => decide (a ≤ b))
        (fun a b c hab hbc => by
          simp only [decide_eq_true_eq] at hab hbc ⊢
          omega)
        (fun a b => by
          simp only [Bool.or_eq_true, decide_eq_true_eq]
          omega)
        (h2.map Prod.fst)
      exact hp.imp fun hab => by simpa using hab
    exact mem_drop_of_upper dates today (dates.length - 7) hsorted
      (List.mem_mergeSort.mpr hmem)
      (fun d hd => hmax d (List.mem_mergeSort.mp hd))
      (by omega)
  · rw [if_neg hlen]

/-- C5: after any call to `update_yield_history` (src/app.py) the store
holds at most 7 distinct dates, and an entry already recorded for the
current date and symbol is never overwritten (first observation per day per
symbol wins), provided today is not earlier than the stored dates. -/
theorem update_yield_history_spec (h : History) (today : Nat)
    (rows : List QuoteRow) :
    ((update_yield_history h today rows).map Prod.fst).toFinset.card ≤ 7 ∧
    (∀ (sym : String) (e : HistEntry),
      (∀ d ∈ h.map Prod.fst, d ≤ today) →
      histLookup h today sym = Option.some e →
      histLookup (update_yield_history h today rows) today sym
        = Option.some e) := by
  constructor
  · exact pruneTo7_card_le _
  · intro sym e hmax he
    obtain ⟨m, hm, hsm⟩ := Option.bind_eq_some.mp he
    have hh1 : (if (alookup today h).isSome then h else h ++ [(today, [])]) = h := by
      rw [if_pos (by rw [hm]; rfl)]
    simp only [update_yield_history, hh1]
    have hstep := scanFoldl_lookup rows today h sym e he
    set h2 := rows.foldl (fun acc r => mapAtDate acc today fun m => addRow m r) h
      with hh2
    have hkeys : h2.map Prod.fst = h.map Prod.fst := scanFoldl_keys rows today h
    have hmem2 : today ∈ h2.map Prod.fst := by
      rw [hkeys]
      exact alookup_mem_keys today m h hm
    have hmax2 : ∀ d ∈ h2.map Prod.fst, d ≤ today := by
      rw [hkeys]
      exact hmax
    rw [histLookup, pruneTo7_lookup_today h2 today hmem2 hmax2]
    rw [histLookup] at hstep
    exact hstep

/-- Witness for C5 on a one-date store: the pre-recorded entry for
(5, "A") survives an update that tries to record new values for "A". -/
theorem update_yield_history_spec_witness :
    ((update_yield_history [(5, [("A", ⟨1, Option.none, 2⟩)])] 5
        [⟨"A", Option.some 9, Option.some 9, 9⟩]).map Prod.fst).toFinset.card ≤ 7 ∧
    histLookup (update_yield_history [(5, [("A", ⟨1, Option.none, 2⟩)])] 5
        [⟨"A", Option.some 9, Option.some 9, 9⟩]) 5 "A"
      = Option.some ⟨1, Option.none, 2⟩ := by
  have h := update_yield_history_spec [(5, [("A", ⟨1, Option.none, 2⟩)])] 5
    [⟨"A", Option.some 9, Option.some 9, 9⟩]
  refine ⟨h.1, h.2 "A" ⟨1, Option.none, 2⟩ ?_ rfl⟩
  intro d hd
  simp at hd
  omega

/-! ### Scanner block lemmas -/

/-- Everything a membership in the BUY block implies. -/
theorem buySignal_mem (threshold : ℚ) (r : ScanRow) (s : Signal)
    (h : s ∈ buySignal threshold r) :
    ∃ y a : ℚ, r.askYtm = Option.some y ∧ r.avgAsk = Option.some a ∧
      a ≠ 0 ∧ threshold < y - a ∧ s = ⟨r.symbol, SignalKind.BUY, y - a⟩ := by
  cases hy : r.askYtm with
  | none => cases ha : r.avgAsk <;> simp [buySignal, hy, ha] at h
  | some y =>
    cases ha : r.avgAsk with
    | none => simp [buySignal, hy, ha] at h
    | some a =>
      simp only [buySignal, hy, ha] at h
      split_ifs at h with hc
      · rw [List.mem_singleton] at h
        exact ⟨y, a, rfl, rfl, hc.1, hc.2, h⟩
      · simp at h

/-- SELL-block members are SELL signals. -/
theorem sellSignal_kind (threshold : ℚ) (r : ScanRow) (s : Signal)
    (h : s ∈ sellSignal threshold r) : s.kind = SignalKind.SELL := by
  cases hy : r.bidYtm with
  | none => cases ha : r.avgBid <;> simp [sellSignal, hy, ha] at h
  | some y =>
    cases ha : r.avgBid with
    | none => simp [sellSignal, hy, ha] at h
    | some a =>
      simp only [sellSignal, hy, ha] at h
      split_ifs at h with hc
      · rw [List.mem_singleton] at h
        rw [h]
      · simp at h

/-- VOLUME-block members are VOLUME signals. -/
theorem volumeSignal_kind (volMult : ℚ) (r : ScanRow) (s : Signal)
    (h : s ∈ volumeSignal volMult r) : s.kind = SignalKind.VOLUME := by
  cases ha : r.avgVol with
  | none => simp [volumeSignal, ha] at h
  | some a =>
    simp only [volumeSignal, ha] at h
    split_ifs at h with hc
    · rw [List.mem_singleton] at h
      rw [h]
    · simp at h

/-- LIQUID-block members are LIQUID signals. -/
theorem liquidSignal_kind (r : ScanRow) (s : Signal)
    (h : s ∈ liquidSignal r) : s.kind = SignalKind.LIQUID := by
  rw [liquidSignal] at h
  split_ifs at h with hc
  · rw [List.mem_singleton] at h
    rw [h]
  · simp at h

/-- Each scanner block emits at most one signal. -/
theorem signal_blocks_length_le (threshold volMult : ℚ) (r : ScanRow) :
    (buySignal threshold r).length ≤ 1 ∧ (sellSignal threshold r).length ≤ 1 ∧
    (volumeSignal volMult r).length ≤ 1 ∧ (liquidSignal r).length ≤ 1 := by
  refine ⟨?_, ?_, ?_, ?_⟩
  · cases hy : r.askYtm <;> cases ha : r.avgAsk <;>
      simp only [buySignal, hy, ha] <;> (try split_ifs) <;> simp
  · cases hy : r.bidYtm <;> cases ha : r.avgBid <;>
      simp only [sellSignal, hy, ha] <;> (try split_ifs) <;> simp
  · cases ha : r.avgVol <;>
      simp only [volumeSignal, ha] <;> (try split_ifs) <;> simp
  · rw [liquidSignal]
    split_ifs <;> simp

/-- Every signal in the pooled fold comes from a bond that passed the
volume floor. -/
theorem mem_scan_foldl (threshold volMult minVol : ℚ) (rows : List ScanRow)
    (acc : List Signal) (s : Signal)
    (h : s ∈ rows.foldl (fun acc r =>
      if r.volume < minVol then acc else acc ++ bondSignals threshold volMult r) acc) :
    s ∈ acc ∨ ∃ r ∈ rows, minVol ≤ r.volume ∧ s ∈ bondSignals threshold volMult r := by
  induction rows generalizing acc with
  | nil => exact Or.inl h
  | cons r t ih =>
    rw [List.foldl_cons] at h
    rcases ih _ h with hacc | ⟨r', hr', hv, hs⟩
    · by_cases hc : r.volume < minVol
      · rw [if_pos hc] at hacc
        exact Or.inl hacc
      · rw [if_neg hc] at hacc
        rcases List.mem_append.mp hacc with h1 | h2
        · exact Or.inl h1
        · exact Or.inr ⟨r, List.mem_cons_self r t, not_lt.mp hc, h2⟩
    · exact Or.inr ⟨r', List.mem_cons_of_mem _ hr', hv, hs⟩

/-- C7 amended: for any bond with present ask YTM and a present *nonzero*
historical ask average, a BUY signal is emitted iff the deviation strictly
exceeds the threshold (exactly at threshold emits none; a stored average of
exactly zero suppresses the signal like a missing one, by Python
truthiness); every BUY signal carries those facts; a bond emits at most 4
signals; the pooled output is sorted descending by priority and truncated
to `topN`; and every emitted signal comes from a bond meeting the volume
floor. -/
theorem generate_opportunities_spec (rows : List ScanRow)
    (threshold volMult minVol : ℚ) (topN : ℕ) :
    (∀ (r : ScanRow) (y a : ℚ), r.askYtm = Option.some y →
      r.avgAsk = Option.some a → a ≠ 0 →
      ((⟨r.symbol, SignalKind.BUY, y - a⟩ : Signal) ∈
          bondSignals threshold volMult r ↔ threshold < y - a)) ∧
    (∀ (r : ScanRow), ∀ s ∈ bondSignals threshold volMult r,
      s.kind = SignalKind.BUY →
      ∃ y a : ℚ, r.askYtm = Option.some y ∧ r.avgAsk = Option.some a ∧
        a ≠ 0 ∧ threshold < y - a ∧ s.priority = y - a) ∧
    (∀ r : ScanRow, (bondSignals threshold volMult r).length ≤ 4) ∧
    (generate_opportunities rows threshold volMult minVol topN).Pairwise
      (fun a b => b.priority ≤ a.priority) ∧
    (generate_opportunities rows threshold volMult minVol topN).length ≤ topN ∧
    (∀ s ∈ generate_opportunities rows threshold volMult minVol topN,
      ∃ r ∈ rows, minVol ≤ r.volume ∧ s ∈ bondSignals threshold volMult r) := by
  have hsorted : ∀ l : List Signal,
      (l.mergeSort fun a b => decide (b.priority ≤ a.priority)).Pairwise
        (fun a b => b.priority ≤ a.priority) := by
    intro l
    have hp := @List.sorted_mergeSort Signal
      (fun a b : Signal => decide (b.priority ≤ a.priority))
      (fun a b c hab hbc => by
        simp only [decide_eq_true_eq] at hab hbc ⊢
        linarith)
      (fun a b => by
        simp only [Bool.or_eq_true, decide_eq_true_eq]
        exact le_total b.priority a.priority)
      l
    exact hp.imp fun hab => by simpa using hab
  refine ⟨?_, ?_, ?_, ?_, ?_, ?_⟩
  · intro r y a hy ha hne
    constructor
    · intro hmem
      rcases List.mem_append.mp hmem with h3 | hliq
      rcases List.mem_append.mp h3 with h2 | hvol
      rcases List.mem_append.mp h2 with hbuy | hsell
      · obtain ⟨y', a', hy', ha', hne', hlt', hs⟩ := buySignal_mem _ _ _ hbuy
        rw [hy] at hy'
        rw [ha] at ha'
        obtain rfl : y = y' := Option.some_inj.mp hy'
        obtain rfl : a = a' := Option.some_inj.mp ha'
        exact hlt'
      · have := sellSignal_kind _ _ _ hsell
        simp at this
      · have := volumeSignal_kind _ _ _ hvol
        simp at this
      · have := liquidSignal_kind _ _ hliq
        simp at this
    · intro hlt
      apply List.mem_append.mpr
      left
      apply List.mem_append.mpr
      left
      apply List.mem_append.mpr
      left
      simp only [buySignal, hy, ha]
      rw [if_pos ⟨hne, hlt⟩]
      exact List.mem_singleton.mpr rfl
  · intro r s hs hkind
    rcases List.mem_append.mp hs with h3 | hliq
    rcases List.mem_append.mp h3 with h2 | hvol
    rcases List.mem_append.mp h2 with hbuy | hsell
    · obtain ⟨y, a, hy, ha, hne, hlt, hmk⟩ := buySignal_mem _ _ _ hbuy
      exact ⟨y, a, hy, ha, hne, hlt, by rw [hmk]⟩
    · rw [sellSignal_kind _ _ _ hsell] at hkind
      simp at hkind
    · rw [volumeSignal_kind _ _ _ hvol] at hkind
      simp at hkind
    · rw [liquidSignal_kind _ _ hliq] at hkind
      simp at hkind
  · intro r
    obtain ⟨h1, h2, h3, h4⟩ := signal_blocks_length_le threshold volMult r
    rw [bondSignals]
    simp only [List.length_append]
    omega
  · simp only [generate_opportunities]
    exact List.Pairwise.sublist (List.take_sublist _ _) (hsorted _)
  · simp only [generate_opportunities]
    rw [List.length_take]
    omega
  · intro s hsout
    simp only [generate_opportunities] at hsout
    have hms : s ∈ (rows.foldl (fun acc r =>
        if r.volume < minVol then acc else acc ++ bondSignals threshold volMult r)
        []).mergeSort fun a b => decide (b.priority ≤ a.priority) :=
      List.mem_of_mem_take hsout
    have hpool := List.mem_mergeSort.mp hms
    rcases mem_scan_foldl threshold volMult minVol rows [] s hpool with habs | hok
    · simp at habs
    · exact hok

/-- C7 counterexample: a bond passing the volume floor whose ask YTM (5)
exceeds its stored historical ask average (0) by far more than the
threshold (1) — the claim demands a BUY signal, yet the scanner emits
nothing because Python truthiness treats the stored average `0` as
missing. -/
theorem generate_opportunities_counterexample :
    (1 : ℚ) < 5 - 0 ∧ (10 : ℚ) ≤ 100 ∧
    generate_opportunities
      [⟨"Z", 100, Option.none, Option.some 5, 1, Option.none, Option.some 0,
        Option.none⟩] 1 2 10 10 = [] := by
  refine ⟨by norm_num, by norm_num, ?_⟩
  have hrow : bondSignals 1 2
      ⟨"Z", 100, Option.none, Option.some 5, 1, Option.none, Option.some 0,
        Option.none⟩ = [] := by
    rw [bondSignals]
    norm_num [buySignal, sellSignal, volumeSignal, liquidSignal]
  simp only [generate_opportunities, List.foldl_cons, List.foldl_nil]
  rw [if_neg (by norm_num), hrow]
  simp

/-- Witness for C7's amended theorem: a bond whose ask YTM (5) exceeds a
nonzero stored average (1) by 4 > threshold 1 does get its BUY signal, and
the output respects the top-N bound. -/
theorem generate_opportunities_spec_witness :
    ((⟨"B", SignalKind.BUY, 5 - 1⟩ : Signal) ∈ bondSignals 1 2
      ⟨"B", 100, Option.none, Option.some 5, 1, Option.none, Option.some 1,
        Option.none⟩) ∧
    (generate_opportunities
      [⟨"B", 100, Option.none, Option.some 5, 1, Option.none, Option.some 1,
        Option.none⟩] 1 2 10 10).length ≤ 10 := by
  have h := generate_opportunities_spec
    [⟨"B", 100, Option.none, Option.some 5, 1, Option.none, Option.some 1,
      Option.none⟩] 1 2 10 10
  exact ⟨(h.1 ⟨"B", 100, Option.none, Option.some 5, 1, Option.none,
    Option.some 1, Option.none⟩ 5 1 rfl rfl (by norm_num)).mpr (by norm_num),
    h.2.2.2.2.1⟩

end BondDashboard
